import Mathlib

/-!
Verification of the cell-routing data plane (gvquiroz/cell-routing-from-scratch).

This file is a shallow embedding, in Lean 4, of the parts of the Go source
that the specification claims talk about:

* `internal/config/config.go` — the config model, `GetCellEndpoints` and
  `Config.Validate`;
* `internal/routing/router.go` — the routing resolver `Router.Route`;
* `internal/limits/manager.go` — the admission `Manager` (semaphores, body
  size check) and the `circuit` package `Breaker` state machine;
* `internal/proxy/handler.go` — `Handler.ServeHTTP` and
  `Handler.proxyRequest` (the per-request pipeline);
* `internal/dataplane/client.go` — `Client.handleConfigSnapshot`, and the
  config `Loader.ApplyConfig` it calls.

Go maps are embedded as association lists with first-match lookup (Go maps
have unique keys, so first-match equals map lookup on every state the Go
program can build).  Go `time.Time` values are embedded as integers
(nanoseconds), `now` being passed explicitly where the Go code calls
`time.Now()`.  External collaborators (the network, upstream responses,
health probe results, the Go standard library parsers) are inputs: an
upstream outcome value, a health oracle `healthy : String → Bool`, and
predicates `parseOk` / `durOk` standing for success of `net/url.Parse` and
`time.ParseDuration`.  Logging calls are dropped; they do not affect any
claimed behavior.
-/

namespace CellRouting

/-- First-match lookup on an association list; embeds Go map indexing
(`m[k]` with its `ok` flag) for maps built by the program, whose keys are
unique. -/
def lookup (k : String) : List (String × α) → Option α
  | [] => none
  | (k₁, v) :: rest => if k₁ = k then some v else lookup k rest

/-- Embeds `config.HealthCheckConfig` (internal/config/config.go): the raw
string durations as they sit in the JSON document. -/
structure HealthCheckConfig where
  path : String
  interval : String
  timeout : String
deriving DecidableEq

/-- Embeds `config.CircuitBreakerConfig` (internal/config/config.go). -/
structure CircuitBreakerConfig where
  failureThreshold : Int
  timeout : String
deriving DecidableEq

/-- Embeds `config.PlacementConfig` (internal/config/config.go).  Go zero
values stand for absent optional fields: `fallback = ""` means no fallback,
`concurrencyLimit`/`maxRequestBodyBytes` `= 0` mean unlimited. -/
structure PlacementConfig where
  url : String
  fallback : String := ""
  healthCheck : Option HealthCheckConfig := none
  circuitBreaker : Option CircuitBreakerConfig := none
  concurrencyLimit : Int := 0
  maxRequestBodyBytes : Int := 0
deriving DecidableEq

/-- Embeds `config.Config` (internal/config/config.go).  A `nil` Go map and
an empty map behave identically in every operation the source performs on
them (`len`, range, index), so both are embedded as `[]`. -/
structure Config where
  version : String
  routingTable : List (String × String)
  cellEndpoints : List (String × String)
  placements : List (String × PlacementConfig)
  defaultPlacement : String
deriving DecidableEq

/-- Embeds `Config.GetRoutingTable`. -/
def Config.getRoutingTable (c : Config) : List (String × String) :=
  c.routingTable

/-- Embeds `Config.GetDefaultPlacement`. -/
def Config.getDefaultPlacement (c : Config) : String :=
  c.defaultPlacement

/-- Embeds `Config.GetCellEndpoints` (internal/config/config.go, lines
100–112): when the legacy `cellEndpoints` map is non-empty it is returned
as-is, and only otherwise is the endpoint map derived from `placements`. -/
def Config.getCellEndpoints (c : Config) : List (String × String) :=
  if c.cellEndpoints.isEmpty then
    c.placements.map (fun kp => (kp.1, kp.2.url))
  else
    c.cellEndpoints

/-- Embeds `Config.GetPlacementConfig`: lookup in the `placements` map
(`nil` map gives not-found, matching lookup on `[]`). -/
def Config.getPlacementConfig (c : Config) (placementKey : String) :
    Option PlacementConfig :=
  lookup placementKey c.placements

/-- Embeds the `routingTable` loop of `Config.Validate`: every placement
referenced by the routing table must exist in the endpoint map.  Go map
iteration order is arbitrary; this embedding checks entries in list order,
which only affects WHICH error is reported, never whether one is. -/
def checkRoutingTable (endpoints : List (String × String)) :
    List (String × String) → Except String Unit
  | [] => .ok ()
  | (routingKey, placementKey) :: rest =>
    if (lookup placementKey endpoints).isNone then
      .error ("routingTable[" ++ routingKey ++
        "] references unknown placement \x27" ++ placementKey ++ "\x27")
    else
      checkRoutingTable endpoints rest

/-- Embeds the URL loop of `Config.Validate`: every endpoint URL must be
accepted by `net/url.Parse` (represented by the predicate `parseOk`).  The
wrapped cause of the Go error is elided from the message. -/
def checkURLs (parseOk : String → Bool) :
    List (String × String) → Except String Unit
  | [] => .ok ()
  | (placement, endpointURL) :: rest =>
    if parseOk endpointURL then
      checkURLs parseOk rest
    else
      .error ("invalid URL for placement \x27" ++ placement ++ "\x27")

/-- Embeds the `placements` loop of `Config.Validate`: fallback references
must exist in the endpoint map, and health check / circuit breaker duration
strings must be accepted by `time.ParseDuration` (represented by `durOk`;
`HealthCheckConfig.Parse` checks the interval before the timeout). -/
def checkPlacements (durOk : String → Bool)
    (endpoints : List (String × String)) :
    List (String × PlacementConfig) → Except String Unit
  | [] => .ok ()
  | (placementKey, placement) :: rest =>
    if placement.fallback ≠ "" ∧ (lookup placement.fallback endpoints).isNone then
      .error ("placement \x27" ++ placementKey ++
        "\x27 references unknown fallback \x27" ++ placement.fallback ++ "\x27")
    else
      match placement.healthCheck with
      | some hc =>
        if ¬ durOk hc.interval then
          .error ("placement \x27" ++ placementKey ++
            "\x27: invalid health check interval")
        else if ¬ durOk hc.timeout then
          .error ("placement \x27" ++ placementKey ++
            "\x27: invalid health check timeout")
        else
          match placement.circuitBreaker with
          | some cb =>
            if ¬ durOk cb.timeout then
              .error ("placement \x27" ++ placementKey ++
                "\x27: invalid circuit breaker timeout")
            else checkPlacements durOk endpoints rest
          | none => checkPlacements durOk endpoints rest
      | none =>
        match placement.circuitBreaker with
        | some cb =>
          if ¬ durOk cb.timeout then
            .error ("placement \x27" ++ placementKey ++
              "\x27: invalid circuit breaker timeout")
          else checkPlacements durOk endpoints rest
        | none => checkPlacements durOk endpoints rest

/-- Embeds `Config.Validate` (internal/config/config.go, lines 144–198), in
source order: non-empty version, default placement present in the endpoint
map, routing table closed over the endpoint map, all endpoint URLs accepted
by `net/url.Parse` (`parseOk`), then fallback / duration checks over the
`placements` map. -/
def Config.validate (parseOk durOk : String → Bool) (c : Config) :
    Except String Unit :=
  if c.version = "" then
    .error "version must be non-empty"
  else
    let endpoints := c.getCellEndpoints
    if (lookup c.defaultPlacement endpoints).isNone then
      .error ("defaultPlacement \x27" ++ c.defaultPlacement ++
        "\x27 not found in endpoints")
    else
      match checkRoutingTable endpoints c.routingTable with
      | .error e => .error e
      | .ok _ =>
        match checkURLs parseOk endpoints with
        | .error e => .error e
        | .ok _ => checkPlacements durOk endpoints c.placements

/-- Embeds `routing.RouteReason` (internal/routing/router.go). -/
inductive RouteReason
  | dedicated
  | tier
  | default
deriving DecidableEq

/-- Embeds `routing.RoutingDecision`. -/
structure RoutingDecision where
  placementKey : String
  reason : RouteReason
  endpointURL : String
deriving DecidableEq

/-- Embeds `Router.isTier` (internal/routing/router.go, lines 79–81): the
hardcoded tier name set. -/
def isTier (placementKey : String) : Bool :=
  placementKey == "tier1" || placementKey == "tier2" || placementKey == "tier3"

/-- The placement-selection phase of `Router.Route` (internal/routing/
router.go, lines 42–63): empty or unknown routing keys fall back to the
default placement with reason `default`; known keys keep their mapped
placement with reason `tier` or `dedicated` by `isTier`. -/
def routePlacement (customerToPlacement : List (String × String))
    (defaultPlacement : String) (routingKey : String) :
    String × RouteReason :=
  if routingKey = "" then
    (defaultPlacement, .default)
  else
    match lookup routingKey customerToPlacement with
    | some placement =>
      (placement, if isTier placement then .tier else .dedicated)
    | none => (defaultPlacement, .default)

/-- Embeds `Router.Route` (internal/routing/router.go, lines 42–76):
placement selection followed by the endpoint lookup, which is the only
error exit. -/
def route (customerToPlacement placementToEndpoint : List (String × String))
    (defaultPlacement : String) (routingKey : String) :
    Except String RoutingDecision :=
  let pr := routePlacement customerToPlacement defaultPlacement routingKey
  match lookup pr.1 placementToEndpoint with
  | none => .error ("no endpoint configured for placement: " ++ pr.1)
  | some endpointURL => .ok ⟨pr.1, pr.2, endpointURL⟩

/-- Character class of the scoped URL model below: letters, digits, dot,
dash and slash. -/
def urlChar (c : Char) : Bool :=
  c.isAlphanum || c == '.' || c == '-' || c == '/'

/-- Splits a character list at the first occurrence of the literal
`://`, returning the (colon-free) part before it and the part after it;
`none` when no colon occurs before such a separator or no separator
exists. -/
def splitScheme (acc : List Char) : List Char → Option (List Char × List Char)
  | [] => none
  | ':' :: '/' :: '/' :: rest => some (acc.reverse, rest)
  | c :: rest => if c = ':' then none else splitScheme (c :: acc) rest

/-- Models the success condition of the Go standard library function
`net/url.Parse`, which `Config.Validate` and `Handler.proxyRequest` call,
restricted to strings without percent-escapes, spaces, control characters
or port suffixes (the class used in this file).  On that class, Parse
accepts every scheme-less string of URL characters (a relative URL) and
every `scheme://rest` with a non-empty alphabetic scheme; in particular it
does not require the scheme to be http or https, nor a host to be
present. -/
def goURLParseOk (s : String) : Bool :=
  match splitScheme [] s.data with
  | none => s.data.all urlChar
  | some (scheme, rest) =>
    ¬ scheme.isEmpty && scheme.all Char.isAlpha && rest.all urlChar

/-- The property the spec states for endpoint URLs, in the words of the
spec (stated for comparison with what the code actually validates): a
parseable absolute URL with a scheme in http/https and a host. -/
def specAbsoluteHTTPURL (s : String) : Bool :=
  match splitScheme [] s.data with
  | some (scheme, rest) =>
    (String.mk scheme == "http" || String.mk scheme == "https") &&
      ¬ (rest.takeWhile (fun c => c ≠ '/')).isEmpty
  | none => false

/-! ## Circuit breaker (`circuit` package, internal/limits/manager.go) -/

/-- Embeds `circuit.State`.  The Go constants `StateClosed`, `StateOpen`,
`StateHalfOpen` become `closed`, `opened`, `halfOpen` (`open` is a Lean
keyword). -/
inductive BreakerState
  | closed
  | opened
  | halfOpen
deriving DecidableEq

/-- Embeds `circuit.Breaker` (internal/limits/manager.go, lines 177–298).
`failures` is the Go `uint32` counter (wrapped modulo `2 ^ 32` where it is
incremented); times are integers standing for `time.Time` nanoseconds.
The logging-only field `lastStateChange` is dropped. -/
structure Breaker where
  state : BreakerState
  failures : Nat
  nextRetryTime : Int
  failureThreshold : Nat
  timeout : Int
deriving DecidableEq

/-- Embeds `circuit.NewBreaker`: closed, zero failures, zero-value
`nextRetryTime`. -/
def initBreaker (failureThreshold : Nat) (timeout : Int) : Breaker :=
  { state := .closed
    failures := 0
    nextRetryTime := 0
    failureThreshold := failureThreshold
    timeout := timeout }

/-- Embeds `Breaker.Allow` (lines 201–225): the returned Bool and the
breaker state after the call.  `now.After(t)` is a strict comparison in
Go. -/
def Breaker.allow (b : Breaker) (now : Int) : Bool × Breaker :=
  match b.state with
  | .closed => (true, b)
  | .opened =>
    if now > b.nextRetryTime then
      (true, { b with state := .halfOpen })
    else
      (false, b)
  | .halfOpen => (true, b)

/-- Embeds `Breaker.RecordSuccess` (lines 228–242): a no-op while open. -/
def Breaker.recordSuccess (b : Breaker) : Breaker :=
  match b.state with
  | .closed => { b with failures := 0 }
  | .halfOpen => { b with failures := 0, state := .closed }
  | .opened => b

/-- Embeds `Breaker.RecordFailure` (lines 245–264): the `uint32` failure
counter is always incremented (mod `2 ^ 32`); the closed state opens on
reaching the threshold, half-open always reopens. -/
def Breaker.recordFailure (b : Breaker) (now : Int) : Breaker :=
  let b₁ := { b with failures := (b.failures + 1) % 2 ^ 32 }
  match b₁.state with
  | .closed =>
    if b₁.failures ≥ b₁.failureThreshold then
      { b₁ with state := .opened, nextRetryTime := now + b₁.timeout }
    else
      b₁
  | .halfOpen => { b₁ with state := .opened, nextRetryTime := now + b₁.timeout }
  | .opened => b₁

/-- One call of the breaker API, with the wall-clock time the Go code would
read via `time.Now()` where it matters. -/
inductive BOp
  | allow (now : Int)
  | recordSuccess
  | recordFailure (now : Int)
deriving DecidableEq

/-- The breaker state after one API call. -/
def Breaker.step (b : Breaker) : BOp → Breaker
  | .allow now => (b.allow now).2
  | .recordSuccess => b.recordSuccess
  | .recordFailure now => b.recordFailure now

/-- The transition discipline claimed for one API call `op` taking `b` to
`b.step op`: never closed→half_open, never open→closed; closed→open only
on a failure that reaches the threshold; open→half_open only on an `allow`
after the open deadline; half_open leaves only on a recorded outcome. -/
def stepObeys (b : Breaker) (op : BOp) : Prop :=
  let b₁ := b.step op
  (¬ (b.state = .closed ∧ b₁.state = .halfOpen)) ∧
  (¬ (b.state = .opened ∧ b₁.state = .closed)) ∧
  (b.state = .closed ∧ b₁.state = .opened →
    ∃ now, op = .recordFailure now ∧
      (b.failures + 1) % 2 ^ 32 ≥ b.failureThreshold) ∧
  (b.state = .opened ∧ b₁.state = .halfOpen →
    ∃ now, op = .allow now ∧ now > b.nextRetryTime) ∧
  (b.state = .halfOpen ∧ b₁.state = .closed → op = .recordSuccess) ∧
  (b.state = .halfOpen ∧ b₁.state = .opened → ∃ now, op = .recordFailure now)

/-- Every call in a sequence obeys the transition discipline, from the
given starting state onward. -/
def obeys (b : Breaker) : List BOp → Prop
  | [] => True
  | op :: rest => stepObeys b op ∧ obeys (b.step op) rest

/-! ## Admission controller (`limits` package, internal/limits/manager.go) -/

/-- Embeds `limits.Config`. -/
structure LimitsConfig where
  maxConcurrentRequests : Int
  maxRequestBodyBytes : Int
deriving DecidableEq

/-- Embeds `limits.Semaphore`: a channel of the given capacity whose
current length is `used` (`TryAcquire` is a non-blocking send, so it
succeeds exactly when `used < capacity`). -/
structure Semaphore where
  capacity : Nat
  used : Nat
deriving DecidableEq

/-- Embeds the state of `limits.Manager`: the per-placement limit configs
and the per-placement semaphores (a semaphore exists exactly for
placements whose `SetConfig` had `MaxConcurrentRequests > 0`). -/
structure LimitsManager where
  config : List (String × LimitsConfig)
  sems : List (String × Semaphore)
deriving DecidableEq

/-- An observable event on the request path, used to state the per-request
accounting claims: semaphore slot taken and released (`Manager.TryAcquire`
and `Manager.Release` reaching an existing semaphore), the upstream proxy
attempt, and the circuit outcome calls. -/
inductive REvent
  | semAcquire (placementKey : String)
  | semRelease (placementKey : String)
  | proxyTo (placementKey : String) (endpointURL : String)
  | recordSuccess (placementKey : String)
  | recordFailure (placementKey : String)
deriving DecidableEq

/-- Embeds `Manager.TryAcquire` (internal/limits/manager.go, lines
97–117): no semaphore means no limit (allowed, no slot taken); otherwise
the non-blocking acquire succeeds exactly below capacity.  Returns the
admission verdict and the slot event, if a slot was taken. -/
def LimitsManager.tryAcquire (m : LimitsManager) (placementKey : String) :
    Bool × List REvent :=
  match lookup placementKey m.sems with
  | none => (true, [])
  | some s =>
    if s.used < s.capacity then
      (true, [.semAcquire placementKey])
    else
      (false, [])

/-- Embeds `Manager.Release` (lines 120–128): a slot is given back only
when the placement has a semaphore. -/
def LimitsManager.releaseEvents (m : LimitsManager) (placementKey : String) :
    List REvent :=
  match lookup placementKey m.sems with
  | none => []
  | some _ => [.semRelease placementKey]

/-- Embeds `Manager.ValidateRequestBodySize` (lines 131–142) as a Bool:
true means within limits (no config, zero limit, or size not above the
limit). -/
def LimitsManager.bodySizeOk (m : LimitsManager) (placementKey : String)
    (size : Int) : Bool :=
  match lookup placementKey m.config with
  | none => true
  | some c =>
    if c.maxRequestBodyBytes = 0 then true
    else decide (¬ size > c.maxRequestBodyBytes)

/-- Embeds the limits part of `Handler.configureResilienceMechanisms`
(internal/proxy/handler.go, lines 91–128): for every endpoint whose
placement config exists and sets a positive concurrency limit or body
limit, `SetConfig` is called, which creates a semaphore exactly when the
concurrency limit is positive. -/
def managerFromConfig (c : Config) : LimitsManager :=
  let entries := c.getCellEndpoints.filterMap (fun pu =>
    match lookup pu.1 c.placements with
    | some pc =>
      if pc.concurrencyLimit > 0 ∨ pc.maxRequestBodyBytes > 0 then
        some (pu.1, LimitsConfig.mk pc.concurrencyLimit pc.maxRequestBodyBytes)
      else none
    | none => none)
  { config := entries
    sems := entries.filterMap (fun e =>
      if e.2.maxConcurrentRequests > 0 then
        some (e.1, ⟨e.2.maxConcurrentRequests.toNat, 0⟩)
      else none) }

/-! ## Proxy engine (internal/proxy/handler.go) -/

/-- The kind of transport failure the upstream call can produce.  The Go
handler never inspects the kind: `client.Do` returns an opaque error for
connect refusal, DNS failure, connect deadline and the response-header
deadline alike. -/
inductive TransportErrorKind
  | connectRefused
  | dnsFailure
  | connectTimeout
  | headerTimeout
deriving DecidableEq

/-- The outcome of the upstream HTTP call, an input to the request
pipeline: either `client.Do` fails with a transport error, or a response
arrives with the given status and the body copy to the client succeeds or
not. -/
inductive UpstreamResult
  | transportError (kind : TransportErrorKind)
  | response (status : Nat) (copyOk : Bool)
deriving DecidableEq

/-- Embeds `Handler.proxyRequest` (internal/proxy/handler.go, lines
300–387) as its `(statusCode, err)` result: `(0, error)` when the endpoint
URL fails `net/url.Parse` or the upstream call fails in transport
(whatever the kind), otherwise the upstream status together with whether
the body copy failed.  The second component is `true` when the Go function
returns a non-nil error. -/
def proxyRequest (parseOk : String → Bool) (endpointURL : String)
    (upstream : UpstreamResult) : Nat × Bool :=
  if ¬ parseOk endpointURL then (0, true)
  else
    match upstream with
    | .transportError _ => (0, true)
    | .response status copyOk => (status, ¬ copyOk)

/-- The outcome of the circuit-breaker step of `ServeHTTP` (lines
201–232): either fail fast with 503, or proceed with a possibly diverted
decision and failover reason. -/
inductive CircuitOutcome
  | fail503
  | proceed (decision : RoutingDecision) (failoverReason : String)
deriving DecidableEq

/-- Embeds `ServeHTTP` lines 201–232: when the breaker for the resolved
placement refuses the request, divert to the configured fallback (reading
its endpoint with Go map indexing, absent giving `""`) with reason
`circuit_open`; with no fallback, fail fast with 503. -/
def circuitStep (c : Config) (allowed : Bool) (decision : RoutingDecision) :
    CircuitOutcome :=
  if allowed then .proceed decision ""
  else
    match c.getPlacementConfig decision.placementKey with
    | some pcfg =>
      if pcfg.fallback ≠ "" then
        .proceed
          { decision with
            placementKey := pcfg.fallback
            endpointURL := (lookup pcfg.fallback c.getCellEndpoints).getD "" }
          "circuit_open"
      else .fail503
    | none => .fail503

/-- Embeds `ServeHTTP` lines 234–269: when the (possibly already diverted)
placement is unhealthy, divert to its configured fallback, or else to the
default placement when that differs from the current placement, with
reason `upstream_unhealthy`; otherwise keep the decision and reason. -/
def healthStep (c : Config) (healthy : String → Bool)
    (decision : RoutingDecision) (failoverReason : String) :
    RoutingDecision × String :=
  if healthy decision.placementKey then (decision, failoverReason)
  else
    match c.getPlacementConfig decision.placementKey with
    | some pcfg =>
      if pcfg.fallback ≠ "" then
        ({ decision with
            placementKey := pcfg.fallback
            endpointURL := (lookup pcfg.fallback c.getCellEndpoints).getD "" },
          "upstream_unhealthy")
      else
        if c.getDefaultPlacement ≠ decision.placementKey then
          ({ decision with
              placementKey := c.getDefaultPlacement
              endpointURL :=
                (lookup c.getDefaultPlacement c.getCellEndpoints).getD "" },
            "upstream_unhealthy")
        else (decision, failoverReason)
    | none =>
      if c.getDefaultPlacement ≠ decision.placementKey then
        ({ decision with
            placementKey := c.getDefaultPlacement
            endpointURL :=
              (lookup c.getDefaultPlacement c.getCellEndpoints).getD "" },
          "upstream_unhealthy")
      else (decision, failoverReason)

/-- Embeds the outcome accounting of `ServeHTTP` lines 272–279 as events:
a circuit failure is recorded when `proxyRequest` returned an error or a
status in [500, ∞), a success otherwise — both against the given breaker
key. -/
def outcomeEvents (breakerKey : String) (pr : Nat × Bool) : List REvent :=
  if pr.2 ∨ pr.1 ≥ 500 then [REvent.recordFailure breakerKey]
  else [REvent.recordSuccess breakerKey]

/-- True exactly for semaphore release events; the observation used to
state that a slot is given back exactly once. -/
def isSemRelease : REvent → Bool
  | .semAcquire _ => false
  | .semRelease _ => true
  | .proxyTo _ _ => false
  | .recordSuccess _ => false
  | .recordFailure _ => false

/-- The observable outcome of one request through `Handler.ServeHTTP`: the
client status, the ordered event trace, the placement of the upstream
actually contacted (none when no upstream call was made), and the final
failover reason. -/
structure ServeOutcome where
  status : Nat
  events : List REvent
  finalPlacement : Option String
  failoverReason : String
deriving DecidableEq

/-- The tail of `ServeHTTP` from line 234 on, given the circuit outcome:
on `fail503` the handler has answered 503 (events: the admission pair);
otherwise the health check and failover of lines 234–269 run, then
`proxyRequest`, the outcome accounting of lines 272–279 against the
breaker captured on line 202 (`breakerKey`), and the 502 fallback of lines
289–293 when no status was written. -/
def proxyPhase (c : Config) (healthy : String → Bool)
    (upstream : UpstreamResult) (parseOk : String → Bool)
    (acqE relE : List REvent) (breakerKey : String) :
    CircuitOutcome → ServeOutcome
  | .fail503 => ⟨503, acqE ++ relE, none, ""⟩
  | .proceed decision₁ failover₁ =>
    let hs := healthStep c healthy decision₁ failover₁
    let pr := proxyRequest parseOk hs.1.endpointURL upstream
    let finalStatus := if pr.2 ∧ pr.1 = 0 then 502 else pr.1
    ⟨finalStatus,
      acqE ++ [REvent.proxyTo hs.1.placementKey hs.1.endpointURL] ++
        outcomeEvents breakerKey pr ++ relE,
      some hs.1.placementKey, hs.2⟩

/-- The middle of `ServeHTTP`, lines 173–232, given the routing decision:
admission (429 when the non-blocking acquire fails; the deferred release
is pinned to the decision placement), the body-size check (413), the
breaker lookup for the decision placement (`GetBreaker` creating a closed
breaker with the manager defaults 5 / 30s when absent) and its `Allow`
call feeding the circuit step. -/
def admitPhase (c : Config) (lm : LimitsManager)
    (breakers : List (String × Breaker)) (healthy : String → Bool)
    (upstream : UpstreamResult) (parseOk : String → Bool) (now : Int)
    (contentLength : Int) (decision : RoutingDecision) : ServeOutcome :=
  let acq := lm.tryAcquire decision.placementKey
  if ¬ acq.1 then
    ⟨429, [], none, ""⟩
  else
    let rel := lm.releaseEvents decision.placementKey
    if contentLength > 0 ∧
        ¬ lm.bodySizeOk decision.placementKey contentLength then
      ⟨413, acq.2 ++ rel, none, ""⟩
    else
      let b := (lookup decision.placementKey breakers).getD
        (initBreaker 5 30000000000)
      proxyPhase c healthy upstream parseOk acq.2 rel decision.placementKey
        (circuitStep c (b.allow now).1 decision)

/-- The routing step of `ServeHTTP`, lines 158–171: a routing error is
answered with 500; otherwise the request proceeds to admission. -/
def routePhase (c : Config) (lm : LimitsManager)
    (breakers : List (String × Breaker)) (healthy : String → Bool)
    (upstream : UpstreamResult) (parseOk : String → Bool) (now : Int)
    (contentLength : Int) : Except String RoutingDecision → ServeOutcome
  | .error _ => ⟨500, [], none, ""⟩
  | .ok decision =>
    admitPhase c lm breakers healthy upstream parseOk now contentLength
      decision

/-- Embeds `Handler.ServeHTTP` (internal/proxy/handler.go, lines 138–297)
for one request.  Inputs beyond the handler state (`c` — both the
router maps and `h.config` come from the same `Config`; `lm`; `breakers` —
the circuit manager content, `GetBreaker` creating a fresh closed breaker
with the manager defaults 5 / 30s for unknown keys): the health oracle,
the upstream outcome, the `net/url.Parse` model, the wall clock, the
routing key header and the request Content-Length.

The Go `defer h.limitsManager.Release(placementKey)` on line 184 evaluates
its argument at defer time, so every exit after admission releases the
ORIGINAL placement key, and the deferred release runs on each such exit
(including panics); the `breaker` variable bound on line 202 likewise
keeps the original placement, so the outcome on lines 275–279 is recorded
against the original placement even after a failover. -/
def serveHTTP (c : Config) (lm : LimitsManager)
    (breakers : List (String × Breaker)) (healthy : String → Bool)
    (upstream : UpstreamResult) (parseOk : String → Bool) (now : Int)
    (routingKey : String) (contentLength : Int) : ServeOutcome :=
  if routingKey = "" then
    ⟨400, [], none, ""⟩
  else
    routePhase c lm breakers healthy upstream parseOk now contentLength
      (route c.getRoutingTable c.getCellEndpoints c.getDefaultPlacement
        routingKey)

/-! ## Push client (internal/dataplane/client.go) and config loader -/

/-- Modelled from the spec: the `config_snapshot` message of the
`internal/protocol` package, whose source is not under src/; its fields
are those of the wire protocol in the spec and of the uses in
`internal/dataplane` (type tag omitted; `placements` is not carried by the
message struct the client decodes, cf. the construction in
`handleConfigSnapshot`). -/
structure ConfigSnapshotMessage where
  version : String
  routingTable : List (String × String)
  cellEndpoints : List (String × String)
  defaultPlacement : String
deriving DecidableEq

/-- Modelled from the spec: the two data-plane→control-plane messages of
the `internal/protocol` package (not under src/): `ack` carries a version,
`nack` a version and an error string. -/
inductive OutMessage
  | ack (version : String)
  | nack (version : String) (error : String)
deriving DecidableEq

/-- Embeds `Loader.ApplyConfig` (src/unnamed/part_007, lines 67–73): the
candidate is stored unconditionally and the function always returns nil —
no validation happens here. -/
def applyConfig (_active : Config) (candidate : Config) :
    Except String Config :=
  .ok candidate

/-- Embeds `Client.handleConfigSnapshot` (internal/dataplane/client.go,
lines 143–169) after a successful unmarshal, acting on the active config:
the snapshot fields are copied into a `Config` (placements left nil),
`Loader.ApplyConfig` is called, and an `ack` or (on `ApplyConfig` error)
`nack` is sent — both built by `sendAck`/`sendNack` with `Version: ""`. -/
def handleConfigSnapshot (active : Config)
    (snapshot : ConfigSnapshotMessage) : Config × OutMessage :=
  let cfg : Config :=
    { version := snapshot.version
      routingTable := snapshot.routingTable
      cellEndpoints := snapshot.cellEndpoints
      placements := []
      defaultPlacement := snapshot.defaultPlacement }
  match applyConfig active cfg with
  | .error e => (active, .nack "" e)
  | .ok newActive => (newActive, .ack "")

/-! ## Concrete configurations and states used by counterexamples and
witnesses -/

/-- The snapshot of scenario S5 of the spec: routing key `a` references
the undeclared placement `ghost`. -/
def ghostSnapshot : ConfigSnapshotMessage :=
  { version := "2"
    routingTable := [("a", "ghost")]
    cellEndpoints := [("tier3", "http://u-t3")]
    defaultPlacement := "tier3" }

/-- A valid previously active config (versions S1/S2 of the spec). -/
def activeCfg : Config :=
  { version := "1"
    routingTable := [("visa", "visa")]
    cellEndpoints := []
    placements := [("visa", { url := "http://u-visa" }),
                   ("tier3", { url := "http://u-t3" })]
    defaultPlacement := "tier3" }

/-- A config carrying BOTH the legacy `cellEndpoints` map and a non-empty
`placements` map, with different keys so the two derived endpoint maps
differ. -/
def cfgBoth : Config :=
  { version := "1"
    routingTable := []
    cellEndpoints := [("a", "http://legacy-a")]
    placements := [("b", { url := "http://new-b" })]
    defaultPlacement := "a" }

/-- A config where placement `p` has fallback `d`, which is also the
default placement. -/
def cfgPD : Config :=
  { version := "1"
    routingTable := [("rk", "p")]
    cellEndpoints := []
    placements := [("p", { url := "http://up", fallback := "d" }),
                   ("d", { url := "http://ud" })]
    defaultPlacement := "d" }

/-- A breaker map where the breaker of `p` is open until time 100. -/
def brOpenP : List (String × Breaker) :=
  [("p", { state := .opened, failures := 5, nextRetryTime := 100,
           failureThreshold := 5, timeout := 30 })]

/-- A config with a two-step fallback chain `p → q → r` and a separate
default placement `d`. -/
def cfgChain : Config :=
  { version := "1"
    routingTable := [("rk", "p")]
    cellEndpoints := []
    placements := [("p", { url := "http://up", fallback := "q" }),
                   ("q", { url := "http://uq", fallback := "r" }),
                   ("r", { url := "http://ur" }),
                   ("d", { url := "http://ud" })]
    defaultPlacement := "d" }

/-- A config whose placement `p` carries a concurrency limit, so the
admission manager holds a semaphore for it. -/
def cfgLim : Config :=
  { version := "1"
    routingTable := [("rk", "p")]
    cellEndpoints := []
    placements := [("p", { url := "http://up", fallback := "d",
                           concurrencyLimit := 2 }),
                   ("d", { url := "http://ud" })]
    defaultPlacement := "d" }

/-- A config whose single endpoint URL parses but is not absolute
http/https: scheme `ftp`. -/
def cfgFtp : Config :=
  { version := "1"
    routingTable := []
    cellEndpoints := []
    placements := [("d", { url := "ftp://cell.example" })]
    defaultPlacement := "d" }

/-- A breaker one recorded failure away from its threshold of 1, open
timeout 10. -/
def probedBreaker : Breaker := (initBreaker 1 10).recordFailure 0

/-! ## Helper lemmas -/

theorem lookup_mem {α : Type} {l : List (String × α)} {k : String} {v : α}
    (h : lookup k l = some v) : (k, v) ∈ l := by
  induction l with
  | nil => simp [lookup] at h
  | cons hd tl ih =>
    obtain ⟨a, b⟩ := hd
    rw [lookup] at h
    by_cases hk : a = k
    · simp [hk] at h
      subst hk; subst h
      exact List.mem_cons_self _ _
    · simp [hk] at h
      exact List.mem_cons_of_mem _ (ih h)

theorem checkRoutingTable_ok {eps : List (String × String)} :
    ∀ {rt : List (String × String)}, checkRoutingTable eps rt = .ok () →
      ∀ {rk pk : String}, (rk, pk) ∈ rt → (lookup pk eps).isSome := by
  intro rt
  induction rt with
  | nil => intro _ rk pk hmem; simp at hmem
  | cons hd tl ih =>
    obtain ⟨a, b⟩ := hd
    intro h rk pk hmem
    rw [checkRoutingTable] at h
    rcases hlk : lookup b eps with _ | v
    · rw [hlk] at h; simp at h
    · rw [hlk] at h; simp at h
      rcases List.mem_cons.mp hmem with heq | hmem₂
      · have hpk : pk = b := by
          have := congrArg Prod.snd heq
          simpa using this
        rw [hpk, hlk]; rfl
      · exact ih h hmem₂

theorem checkURLs_ok {parseOk : String → Bool} :
    ∀ {eps : List (String × String)}, checkURLs parseOk eps = .ok () →
      ∀ {pk u : String}, (pk, u) ∈ eps → parseOk u = true := by
  intro eps
  induction eps with
  | nil => intro _ pk u hmem; simp at hmem
  | cons hd tl ih =>
    obtain ⟨a, b⟩ := hd
    intro h pk u hmem
    rw [checkURLs] at h
    by_cases hb : parseOk b
    · rw [if_pos hb] at h
      rcases List.mem_cons.mp hmem with heq | hmem₂
      · have hu : u = b := by
          have := congrArg Prod.snd heq
          simpa using this
        rw [hu]; exact hb
      · exact ih h hmem₂
    · rw [if_neg hb] at h; simp at h

theorem validate_ok_parts {parseOk durOk : String → Bool} {c : Config}
    (h : c.validate parseOk durOk = .ok ()) :
    (lookup c.defaultPlacement c.getCellEndpoints).isSome ∧
      checkRoutingTable c.getCellEndpoints c.routingTable = .ok () ∧
      checkURLs parseOk c.getCellEndpoints = .ok () := by
  rw [Config.validate] at h
  split at h
  · simp at h
  · dsimp only at h
    split at h
    · simp at h
    · rename_i hd
      refine ⟨by simpa [Option.isNone_iff_eq_none, Option.isSome_iff_ne_none] using hd, ?_⟩
      rcases hrt : checkRoutingTable c.getCellEndpoints c.routingTable with e | u
      · rw [hrt] at h; simp at h
      · cases u
        rw [hrt] at h
        rcases hu : checkURLs parseOk c.getCellEndpoints with e | u₂
        · rw [hu] at h; simp at h
        · cases u₂
          exact ⟨rfl, rfl⟩

/-! ## Claim theorems -/

/-- C5: on every snapshot that passes validation, `Route` succeeds for
every routing key and returns an endpoint URL accepted by the URL parser;
an empty or unknown key yields the default placement, its endpoint URL
from the endpoint map, and reason `default`; a known key yields its mapped
placement with reason `tier` exactly for the hardcoded tier set and
`dedicated` otherwise; and (for any maps) `Route` returns an error only
when the chosen placement has no endpoint entry. -/
theorem resolve_on_validated_snapshot
    (parseOk durOk : String → Bool) (c : Config) (k : String)
    (hval : c.validate parseOk durOk = .ok ()) :
    (∃ d, route c.getRoutingTable c.getCellEndpoints c.getDefaultPlacement k
        = .ok d ∧
      parseOk d.endpointURL = true ∧
      ((k = "" ∨ lookup k c.getRoutingTable = none) →
        d.placementKey = c.getDefaultPlacement ∧
        lookup c.getDefaultPlacement c.getCellEndpoints = some d.endpointURL ∧
        d.reason = .default) ∧
      (∀ pk, k ≠ "" → lookup k c.getRoutingTable = some pk →
        d.placementKey = pk ∧
        d.reason = (if isTier pk then RouteReason.tier else .dedicated))) ∧
    (∀ k₁ e,
      route c.getRoutingTable c.getCellEndpoints c.getDefaultPlacement k₁
        = .error e →
      lookup (routePlacement c.getRoutingTable c.getDefaultPlacement k₁).1
        c.getCellEndpoints = none) := by
  obtain ⟨hdp, hrt, hurls⟩ := validate_ok_parts hval
  have herrchar : ∀ k₁ e,
      route c.getRoutingTable c.getCellEndpoints c.getDefaultPlacement k₁
        = .error e →
      lookup (routePlacement c.getRoutingTable c.getDefaultPlacement k₁).1
        c.getCellEndpoints = none := by
    intro k₁ e herr
    rw [route] at herr
    rcases hl : lookup
        (routePlacement c.getRoutingTable c.getDefaultPlacement k₁).1
        c.getCellEndpoints with _ | u
    · rfl
    · rw [hl] at herr
      simp at herr
  refine ⟨?_, herrchar⟩
  simp only [Config.getRoutingTable, Config.getDefaultPlacement]
  by_cases hk : k = ""
  · subst hk
    obtain ⟨u, hu⟩ := Option.isSome_iff_exists.mp hdp
    refine ⟨⟨c.getDefaultPlacement, .default, u⟩, ?_, ?_, ?_, ?_⟩
    · rw [route, routePlacement, if_pos rfl]
      dsimp only
      rw [hu]
      rfl
    · exact checkURLs_ok hurls (lookup_mem hu)
    · intro _
      exact ⟨rfl, hu, rfl⟩
    · intro pk hne _
      exact absurd rfl hne
  · rcases hlk : lookup k c.routingTable with _ | pk
    · obtain ⟨u, hu⟩ := Option.isSome_iff_exists.mp hdp
      refine ⟨⟨c.getDefaultPlacement, .default, u⟩, ?_, ?_, ?_, ?_⟩
      · rw [route, routePlacement, if_neg hk, hlk]
        dsimp only
        rw [hu]
        rfl
      · exact checkURLs_ok hurls (lookup_mem hu)
      · intro _
        exact ⟨rfl, hu, rfl⟩
      · intro pk hne hsome
        exact absurd hsome (by simp)
    · have hsome := checkRoutingTable_ok hrt (lookup_mem hlk)
      obtain ⟨u, hu⟩ := Option.isSome_iff_exists.mp hsome
      refine ⟨⟨pk, if isTier pk then .tier else .dedicated, u⟩, ?_, ?_, ?_, ?_⟩
      · rw [route, routePlacement, if_neg hk, hlk]
        dsimp only
        rw [hu]
      · exact checkURLs_ok hurls (lookup_mem hu)
      · intro hdisj
        rcases hdisj with h₁ | h₂
        · exact absurd h₁ hk
        · exact absurd h₂ (by simp)
      · intro pk₂ _ hsome₂
        have hpk : pk = pk₂ := Option.some.inj hsome₂
        subst hpk
        exact ⟨rfl, rfl⟩

/-- Witness for C5 at the snapshot of scenarios S1/S2 and the routing key
`visa`. -/
theorem resolve_on_validated_snapshot_witness :
    activeCfg.validate goURLParseOk (fun _ => true) = .ok () ∧
    route activeCfg.getRoutingTable activeCfg.getCellEndpoints
      activeCfg.getDefaultPlacement "visa"
      = .ok ⟨"visa", .dedicated, "http://u-visa"⟩ := by
  have h := resolve_on_validated_snapshot goURLParseOk (fun _ => true)
    activeCfg "visa" (by rfl)
  obtain ⟨⟨d, hroute, _, _, hfound⟩, _⟩ := h
  refine ⟨by rfl, ?_⟩
  have hd := hfound "visa" (by decide) (by rfl)
  rw [hroute]
  have hurl : d.endpointURL = "http://u-visa" := by
    have : route activeCfg.getRoutingTable activeCfg.getCellEndpoints
        activeCfg.getDefaultPlacement "visa"
        = .ok ⟨"visa", .dedicated, "http://u-visa"⟩ := by rfl
    rw [this] at hroute
    have := Except.ok.inj hroute
    rw [← this]
  have h1 : d.placementKey = "visa" := hd.1
  have h2 : d.reason = .dedicated := by
    have := hd.2
    simpa [isTier] using this
  cases d
  simp_all

theorem stepObeys_all (b : Breaker) (op : BOp) : stepObeys b op := by
  unfold stepObeys
  rcases op with now | _ | now <;> rcases hb : b.state with _ | _ | _
  · simp [Breaker.step, Breaker.allow, hb]
  · by_cases ht : now > b.nextRetryTime
    · simp [Breaker.step, Breaker.allow, hb, ht]
    · simp [Breaker.step, Breaker.allow, hb, ht]
  · simp [Breaker.step, Breaker.allow, hb]
  · simp [Breaker.step, Breaker.recordSuccess, hb]
  · simp [Breaker.step, Breaker.recordSuccess, hb]
  · simp [Breaker.step, Breaker.recordSuccess, hb]
  · by_cases ht : b.failureThreshold ≤ (b.failures + 1) % 4294967296
    · simp [Breaker.step, Breaker.recordFailure, hb, ht]
    · simp [Breaker.step, Breaker.recordFailure, hb, ht]
  · simp [Breaker.step, Breaker.recordFailure, hb]
  · simp [Breaker.step, Breaker.recordFailure, hb]

theorem obeys_all : ∀ (ops : List BOp) (b : Breaker), obeys b ops := by
  intro ops
  induction ops with
  | nil => intro b; trivial
  | cons op rest ih =>
    intro b
    exact ⟨stepObeys_all b op, ih (b.step op)⟩

/-- C6: from the initial closed breaker state, every sequence of `Allow`,
`RecordSuccess` and `RecordFailure` calls (any threshold, any open
timeout, any call times) obeys the transition discipline: no
closed→half_open and no direct open→closed transition; closed→open only on
a recorded failure reaching the threshold; open→half_open only on an
`Allow` past the open deadline; half_open→closed only on a success,
half_open→open only on a failure. -/
theorem breaker_transition_discipline
    (failureThreshold : Nat) (timeout : Int) (ops : List BOp) :
    obeys (initBreaker failureThreshold timeout) ops :=
  obeys_all ops (initBreaker failureThreshold timeout)

/-- C7 (refutation): in the half_open state the breaker does NOT restrict
traffic to a single probe.  With threshold 1 and open timeout 10: a
failure opens the breaker; the `Allow` at time 11 transitions it to
half_open and admits the probe; before any outcome is recorded, a second
`Allow` at time 12 is also admitted (`Allow` returns true), where the
claim requires it to return false. -/
theorem half_open_allows_second_probe :
    probedBreaker.state = .opened ∧
    (probedBreaker.allow 11).1 = true ∧
    (probedBreaker.allow 11).2.state = .halfOpen ∧
    ((probedBreaker.allow 11).2.allow 12).1 = true := by
  decide

/-- C1 (refutation): the push client applies the S5 `ghost` snapshot
without running the validator — the invalid config (whose validation fails
naming `ghost`) becomes the active config, and an `ack` with an empty
version string is sent instead of a `nack` carrying version `2` and the
error. -/
theorem push_snapshot_applied_without_validation :
    (handleConfigSnapshot activeCfg ghostSnapshot).1.version = "2" ∧
    (handleConfigSnapshot activeCfg ghostSnapshot).1.routingTable
      = [("a", "ghost")] ∧
    (handleConfigSnapshot activeCfg ghostSnapshot).2 = .ack "" ∧
    Config.validate goURLParseOk (fun _ => true)
      (handleConfigSnapshot activeCfg ghostSnapshot).1
      = .error "routingTable[a] references unknown placement \x27ghost\x27" := by
  refine ⟨rfl, rfl, rfl, rfl⟩

/-- C2 (refutation): on a config carrying both a non-empty legacy
`cellEndpoints` map and a non-empty `placements` map, the endpoint map
used for validation and routing is the LEGACY one: the placement key `b`
declared under `placements` is absent from it, and the legacy key `a` is
present. -/
theorem legacy_endpoints_win_counterexample :
    cfgBoth.getCellEndpoints = [("a", "http://legacy-a")] ∧
    lookup "b" cfgBoth.getCellEndpoints = none ∧
    cfgBoth.placements.map (fun kp => (kp.1, kp.2.url))
      = [("b", "http://new-b")] := by
  refine ⟨rfl, rfl, rfl⟩

/-- C2 (amended): whenever the legacy `cellEndpoints` map is non-empty —
in particular whenever both formats are present — `GetCellEndpoints`
returns the legacy map unchanged and `placements` is ignored. -/
theorem legacy_endpoints_precedence (c : Config)
    (h : c.cellEndpoints ≠ []) : c.getCellEndpoints = c.cellEndpoints := by
  rw [Config.getCellEndpoints, if_neg]
  simpa using h

/-- Witness for the amended C2 at the both-formats config. -/
theorem legacy_endpoints_precedence_witness :
    cfgBoth.cellEndpoints ≠ [] ∧
    cfgBoth.getCellEndpoints = cfgBoth.cellEndpoints :=
  ⟨by decide, legacy_endpoints_precedence cfgBoth (by decide)⟩

/-- C9 (refutation): a config whose only endpoint URL is
`ftp://cell.example` — which parses but is neither http nor https — passes
validation; so validation does not reject every config containing a URL
that is not an absolute http/https URL. -/
theorem nonhttp_url_accepted :
    cfgFtp.validate goURLParseOk (fun _ => true) = .ok () ∧
    lookup "d" cfgFtp.getCellEndpoints = some "ftp://cell.example" ∧
    specAbsoluteHTTPURL "ftp://cell.example" = false := by
  refine ⟨rfl, rfl, by decide⟩

/-- C9 (amended): what validation actually guarantees about endpoint URLs
is exactly parseability: every config accepted by the validator has all
its endpoint URLs accepted by `net/url.Parse` (and, contrapositively, a
config with an unparseable URL is never accepted) — the absolute-http/https
check the claim states is not performed. -/
theorem validate_requires_parseable_urls
    (parseOk durOk : String → Bool) (c : Config)
    (hval : c.validate parseOk durOk = .ok ()) :
    ∀ pk u, (pk, u) ∈ c.getCellEndpoints → parseOk u = true := by
  obtain ⟨_, _, hurls⟩ := validate_ok_parts hval
  intro pk u hmem
  exact checkURLs_ok hurls hmem

/-- Witness for the amended C9 at the S1/S2 snapshot. -/
theorem validate_requires_parseable_urls_witness :
    activeCfg.validate goURLParseOk (fun _ => true) = .ok () ∧
    goURLParseOk "http://u-visa" = true :=
  ⟨by rfl,
    validate_requires_parseable_urls goURLParseOk (fun _ => true) activeCfg
      (by rfl) "visa" "http://u-visa" (by decide)⟩

/-- C3 (refutation): when the circuit of `p` is open and the request fails
over to its fallback `d`, the upstream 500 from `d` is recorded against
`p` — the breaker handle bound before the failover — and not against the
placement `d` actually contacted, where the claim (and spec §4.I step 10)
requires it. -/
theorem failover_outcome_recorded_on_original :
    (serveHTTP cfgPD (managerFromConfig cfgPD) brOpenP (fun _ => true)
      (.response 500 true) goURLParseOk 5 "rk" 0).finalPlacement = some "d" ∧
    (serveHTTP cfgPD (managerFromConfig cfgPD) brOpenP (fun _ => true)
      (.response 500 true) goURLParseOk 5 "rk" 0).failoverReason
      = "circuit_open" ∧
    REvent.recordFailure "p" ∈
      (serveHTTP cfgPD (managerFromConfig cfgPD) brOpenP (fun _ => true)
        (.response 500 true) goURLParseOk 5 "rk" 0).events ∧
    REvent.recordFailure "d" ∉
      (serveHTTP cfgPD (managerFromConfig cfgPD) brOpenP (fun _ => true)
        (.response 500 true) goURLParseOk 5 "rk" 0).events := by
  decide

/-- C4 (refutation): a request whose upstream call fails with the
response-header deadline exceeded is answered with 502, not the 504 the
claim (and ARCHITECTURE.md) states — the handler cannot distinguish it
from any other transport error, which also yields 502; the failure is
recorded in the circuit either way. -/
theorem header_timeout_mapped_to_502 :
    (serveHTTP cfgPD (managerFromConfig cfgPD) [] (fun _ => true)
      (.transportError .headerTimeout) goURLParseOk 5 "rk" 0).status
      = 502 ∧
    REvent.recordFailure "p" ∈
      (serveHTTP cfgPD (managerFromConfig cfgPD) [] (fun _ => true)
        (.transportError .headerTimeout) goURLParseOk 5 "rk" 0).events ∧
    (serveHTTP cfgPD (managerFromConfig cfgPD) [] (fun _ => true)
      (.transportError .connectRefused) goURLParseOk 5 "rk" 0).status
      = 502 ∧
    REvent.recordFailure "p" ∈
      (serveHTTP cfgPD (managerFromConfig cfgPD) [] (fun _ => true)
        (.transportError .connectRefused) goURLParseOk 5 "rk" 0).events := by
  decide

/-- C10 (refutation): circuit of `p` open, fallback `d` configured and
unhealthy, but `d` is the default placement and has no fallback of its
own: no second diversion happens and the failover reason remains
`circuit_open`, where the claim requires a diversion to the default with
reason overwritten to `upstream_unhealthy`. -/
theorem unhealthy_default_fallback_not_rediverted :
    (serveHTTP cfgPD (managerFromConfig cfgPD) brOpenP
      (fun pk => !(pk == "d")) (.response 200 true) goURLParseOk 5 "rk"
      0).finalPlacement = some "d" ∧
    (serveHTTP cfgPD (managerFromConfig cfgPD) brOpenP
      (fun pk => !(pk == "d")) (.response 200 true) goURLParseOk 5 "rk"
      0).failoverReason = "circuit_open" := by
  decide

theorem tryAcquire_cases (lm : LimitsManager) (q : String) :
    (lm.tryAcquire q).2 = [] ∨
      ((lm.tryAcquire q).2 = [REvent.semAcquire q] ∧
        lm.releaseEvents q = [REvent.semRelease q]) := by
  unfold LimitsManager.tryAcquire LimitsManager.releaseEvents
  rcases hl : lookup q lm.sems with _ | sem
  · left; rfl
  · by_cases hc : sem.used < sem.capacity
    · right
      exact ⟨by simp [hc], rfl⟩
    · left
      simp [hc]

theorem semAcquire_not_mem_release (lm : LimitsManager) (q pk : String) :
    REvent.semAcquire pk ∉ lm.releaseEvents q := by
  unfold LimitsManager.releaseEvents
  rcases lookup q lm.sems <;> simp

theorem outcomeEvents_no_sem (k q : String) (pr : Nat × Bool) :
    REvent.semAcquire q ∉ outcomeEvents k pr ∧
      REvent.semRelease q ∉ outcomeEvents k pr := by
  unfold outcomeEvents
  split <;> simp

/-- The event trace of `serveHTTP` is either empty (an exit before
admission) or has the form `acquire ++ mid ++ release` for the original
routing decision placement, where `mid` holds no semaphore events. -/
theorem serveHTTP_events_shape (c : Config) (lm : LimitsManager)
    (breakers : List (String × Breaker)) (healthy : String → Bool)
    (upstream : UpstreamResult) (parseOk : String → Bool) (now : Int)
    (routingKey : String) (contentLength : Int) :
    (serveHTTP c lm breakers healthy upstream parseOk now routingKey
      contentLength).events = [] ∨
    ∃ d mid,
      route c.getRoutingTable c.getCellEndpoints c.getDefaultPlacement
        routingKey = .ok d ∧
      (serveHTTP c lm breakers healthy upstream parseOk now routingKey
          contentLength).events
        = (lm.tryAcquire d.placementKey).2 ++ mid ++
            lm.releaseEvents d.placementKey ∧
      (∀ q, REvent.semAcquire q ∉ mid) ∧
      (∀ q, REvent.semRelease q ∉ mid) := by
  rw [serveHTTP]
  by_cases hrk : routingKey = ""
  · rw [if_pos hrk]
    left
    rfl
  · rw [if_neg hrk]
    rcases hroute : route c.getRoutingTable c.getCellEndpoints
        c.getDefaultPlacement routingKey with e | d
    · left
      rfl
    · simp only [routePhase]
      rw [admitPhase]
      by_cases hacq : (lm.tryAcquire d.placementKey).1
      · simp only [hacq, not_true, if_neg, not_false_eq_true, ite_false,
          if_false]
        by_cases hbody : contentLength > 0 ∧
            ¬ lm.bodySizeOk d.placementKey contentLength = true
        · rw [if_pos hbody]
          right
          exact ⟨d, [], rfl, by simp, by simp, by simp⟩
        · rw [if_neg hbody]
          rcases circuitStep c
              (((lookup d.placementKey breakers).getD
                (initBreaker 5 30000000000)).allow now).1 d
            with _ | ⟨dec₁, f₁⟩
          · right
            exact ⟨d, [], rfl, by simp [proxyPhase], by simp, by simp⟩
          · right
            refine ⟨d,
              [REvent.proxyTo (healthStep c healthy dec₁ f₁).1.placementKey
                  (healthStep c healthy dec₁ f₁).1.endpointURL] ++
                outcomeEvents d.placementKey
                  (proxyRequest parseOk
                    (healthStep c healthy dec₁ f₁).1.endpointURL upstream),
              rfl, by simp [proxyPhase], ?_, ?_⟩
            · intro q
              simp only [List.mem_append]
              rintro (hq | hq)
              · simp at hq
              · exact (outcomeEvents_no_sem _ q _).1 hq
            · intro q
              simp only [List.mem_append]
              rintro (hq | hq)
              · simp at hq
              · exact (outcomeEvents_no_sem _ q _).2 hq
      · simp only [Bool.not_eq_true] at hacq
        simp only [hacq]
        left
        rfl

/-- C8: whenever the admission step of `ServeHTTP` takes a semaphore slot
(event `semAcquire pk`), the event trace of the request contains exactly
one release, it is for the same placement key `pk`, and `pk` is the
placement of the ORIGINAL routing decision — the deferred
`Release(placementKey)` captured its argument before any failover could
reassign the variable; this holds on every exit path of the handler
(body-size rejection, circuit-open rejection, proxy error, normal
completion). -/
theorem admission_slot_released_once
    (c : Config) (lm : LimitsManager) (breakers : List (String × Breaker))
    (healthy : String → Bool) (upstream : UpstreamResult)
    (parseOk : String → Bool) (now : Int) (routingKey : String)
    (contentLength : Int) (pk : String)
    (h : REvent.semAcquire pk ∈
      (serveHTTP c lm breakers healthy upstream parseOk now routingKey
        contentLength).events) :
    (serveHTTP c lm breakers healthy upstream parseOk now routingKey
        contentLength).events.filter isSemRelease
      = [REvent.semRelease pk] ∧
    ∃ d, route c.getRoutingTable c.getCellEndpoints c.getDefaultPlacement
        routingKey = .ok d ∧ d.placementKey = pk := by
  rcases serveHTTP_events_shape c lm breakers healthy upstream parseOk now
      routingKey contentLength with hev | ⟨d, mid, hroute, hev, hmidA, hmidR⟩
  · rw [hev] at h
    simp at h
  · rw [hev] at h ⊢
    rcases tryAcquire_cases lm d.placementKey with hA | ⟨hA, hR⟩
    · exfalso
      rw [hA] at h
      simp at h
      rcases h with h | h
      · exact hmidA pk h
      · exact semAcquire_not_mem_release lm d.placementKey pk h
    · have hpk : pk = d.placementKey := by
        rw [hA, hR] at h
        simp only [List.mem_append, List.mem_singleton] at h
        rcases h with (h | h) | h
        · simpa using h
        · exact absurd h (hmidA pk)
        · simp at h
      subst hpk
      refine ⟨?_, d, hroute, rfl⟩
      rw [hA, hR]
      rw [List.filter_append, List.filter_append]
      have hmidf : mid.filter isSemRelease = [] := by
        rw [List.filter_eq_nil_iff]
        intro a ha
        cases a with
        | semAcquire q => simp [isSemRelease]
        | semRelease q => exact absurd ha (hmidR q)
        | proxyTo q u => simp [isSemRelease]
        | recordSuccess q => simp [isSemRelease]
        | recordFailure q => simp [isSemRelease]
      rw [hmidf]
      simp [isSemRelease]

/-- Witness for C8: with a concurrency limit of 2 on `p` and an idle
manager, the request through `p` takes the slot and the trace releases it
exactly once. -/
theorem admission_slot_released_once_witness :
    REvent.semAcquire "p" ∈
      (serveHTTP cfgLim (managerFromConfig cfgLim) [] (fun _ => true)
        (.response 200 true) goURLParseOk 5 "rk" 0).events ∧
    (serveHTTP cfgLim (managerFromConfig cfgLim) [] (fun _ => true)
      (.response 200 true) goURLParseOk 5 "rk" 0).events.filter isSemRelease
      = [REvent.semRelease "p"] := by
  have h : REvent.semAcquire "p" ∈
      (serveHTTP cfgLim (managerFromConfig cfgLim) [] (fun _ => true)
        (.response 200 true) goURLParseOk 5 "rk" 0).events := by decide
  exact ⟨h, (admission_slot_released_once cfgLim (managerFromConfig cfgLim)
    [] (fun _ => true) (.response 200 true) goURLParseOk 5 "rk" 0 "p" h).1⟩

/-- C10 (amended): when the resolved placement is rejected by its breaker
and has a fallback configured, the handler diverts there with reason
`circuit_open` and then also checks the health of the fallback; when the
fallback is unhealthy it is diverted a second time — to the fallback of
the fallback when one is configured, otherwise to the default placement
when the fallback is not already the default — with the failover reason
overwritten to `upstream_unhealthy`; but when the unhealthy fallback IS
the default placement and has no fallback of its own, no second diversion
happens and the reason stays `circuit_open`. -/
theorem circuit_fallback_health_reevaluated
    (c : Config) (lm : LimitsManager) (breakers : List (String × Breaker))
    (healthy : String → Bool) (upstream : UpstreamResult)
    (parseOk : String → Bool) (now : Int) (routingKey : String)
    (contentLength : Int) (dec : RoutingDecision) (pcfg : PlacementConfig)
    (hrk : routingKey ≠ "")
    (hroute : route c.getRoutingTable c.getCellEndpoints
      c.getDefaultPlacement routingKey = .ok dec)
    (hacq : (lm.tryAcquire dec.placementKey).1 = true)
    (hbody : ¬ (contentLength > 0 ∧
      ¬ lm.bodySizeOk dec.placementKey contentLength = true))
    (hallow : (((lookup dec.placementKey breakers).getD
      (initBreaker 5 30000000000)).allow now).1 = false)
    (hpcfg : c.getPlacementConfig dec.placementKey = some pcfg)
    (hfb : pcfg.fallback ≠ "")
    (hunhealthy : healthy pcfg.fallback = false) :
    (∀ pcfg₂, c.getPlacementConfig pcfg.fallback = some pcfg₂ →
      pcfg₂.fallback ≠ "" →
      (serveHTTP c lm breakers healthy upstream parseOk now routingKey
        contentLength).finalPlacement = some pcfg₂.fallback ∧
      (serveHTTP c lm breakers healthy upstream parseOk now routingKey
        contentLength).failoverReason = "upstream_unhealthy") ∧
    ((∀ pcfg₂, c.getPlacementConfig pcfg.fallback = some pcfg₂ →
        pcfg₂.fallback = "") →
      c.getDefaultPlacement ≠ pcfg.fallback →
      (serveHTTP c lm breakers healthy upstream parseOk now routingKey
        contentLength).finalPlacement = some c.getDefaultPlacement ∧
      (serveHTTP c lm breakers healthy upstream parseOk now routingKey
        contentLength).failoverReason = "upstream_unhealthy") ∧
    ((∀ pcfg₂, c.getPlacementConfig pcfg.fallback = some pcfg₂ →
        pcfg₂.fallback = "") →
      c.getDefaultPlacement = pcfg.fallback →
      (serveHTTP c lm breakers healthy upstream parseOk now routingKey
        contentLength).finalPlacement = some pcfg.fallback ∧
      (serveHTTP c lm breakers healthy upstream parseOk now routingKey
        contentLength).failoverReason = "circuit_open") := by
  have hcs : circuitStep c
      (((lookup dec.placementKey breakers).getD
        (initBreaker 5 30000000000)).allow now).1 dec
      = .proceed
          (RoutingDecision.mk pcfg.fallback dec.reason
            ((lookup pcfg.fallback c.getCellEndpoints).getD ""))
          "circuit_open" := by
    rw [hallow]
    simp [circuitStep, hpcfg, hfb]
  have hfields :
      (serveHTTP c lm breakers healthy upstream parseOk now routingKey
        contentLength).finalPlacement
        = some (healthStep c healthy
            (RoutingDecision.mk pcfg.fallback dec.reason
              ((lookup pcfg.fallback c.getCellEndpoints).getD ""))
            "circuit_open").1.placementKey ∧
      (serveHTTP c lm breakers healthy upstream parseOk now routingKey
        contentLength).failoverReason
        = (healthStep c healthy
            (RoutingDecision.mk pcfg.fallback dec.reason
              ((lookup pcfg.fallback c.getCellEndpoints).getD ""))
            "circuit_open").2 := by
    rw [serveHTTP, if_neg hrk, hroute]
    simp only [routePhase]
    rw [admitPhase]
    dsimp only
    rw [if_neg (show ¬ ¬ (lm.tryAcquire dec.placementKey).1 = true by
      simp [hacq])]
    rw [if_neg hbody]
    rw [hcs]
    simp only [proxyPhase]
    exact ⟨trivial, trivial⟩
  have hhk : (RoutingDecision.mk pcfg.fallback dec.reason
      ((lookup pcfg.fallback c.getCellEndpoints).getD "")).placementKey
      = pcfg.fallback := rfl
  refine ⟨?_, ?_, ?_⟩
  · intro pcfg₂ h₂ hfb₂
    rw [hfields.1, hfields.2]
    rw [healthStep, hhk, hunhealthy]
    simp [h₂, hfb₂]
  · intro hnofb hdef
    rw [hfields.1, hfields.2]
    rw [healthStep, hhk, hunhealthy]
    rcases hl : c.getPlacementConfig pcfg.fallback with _ | pcfg₂
    · simp [hdef]
    · have := hnofb pcfg₂ hl
      simp [this, hdef]
  · intro hnofb hdef
    rw [hfields.1, hfields.2]
    rw [healthStep, hhk, hunhealthy]
    rcases hl : c.getPlacementConfig pcfg.fallback with _ | pcfg₂
    · simp [hdef]
    · have := hnofb pcfg₂ hl
      simp [this, hdef]

/-- Witness for the amended C10 on the chain `p → q → r` with `q`
unhealthy and the circuit of `p` open: the request lands on `r` with
failover reason `upstream_unhealthy`. -/
theorem circuit_fallback_health_reevaluated_witness :
    (serveHTTP cfgChain (managerFromConfig cfgChain) brOpenP
      (fun pk => !(pk == "q")) (.response 200 true) goURLParseOk 5 "rk"
      0).finalPlacement = some "r" ∧
    (serveHTTP cfgChain (managerFromConfig cfgChain) brOpenP
      (fun pk => !(pk == "q")) (.response 200 true) goURLParseOk 5 "rk"
      0).failoverReason = "upstream_unhealthy" := by
  have h := circuit_fallback_health_reevaluated cfgChain
    (managerFromConfig cfgChain) brOpenP (fun pk => !(pk == "q"))
    (.response 200 true) goURLParseOk 5 "rk" 0
    ⟨"p", .dedicated, "http://up"⟩ { url := "http://up", fallback := "q" }
    (by decide) (by rfl) (by rfl) (by decide) (by rfl) (by rfl)
    (by decide) (by rfl)
  exact h.1 { url := "http://uq", fallback := "r" } (by rfl) (by decide)

end CellRouting